import Mathlib

/-!
Shallow embedding of the PreTeXt CLI front end (`pretext/cli.py`).

The CLI is orchestration code: it locates a project manifest, resolves
per-target build configuration, validates the source, and dispatches to an
external transformation engine.  We embed each command as a pure function
from an environment (the observable state of the filesystem and of the
missing helper modules) and the parsed command-line arguments to a trace of
observable events together with an outcome (normal return, `sys.exit`, or an
uncaught Python exception).

Helper modules of the repository (`utils.py`, `project.py`, `build.py`,
`static/`) are not part of the analysed sources; where their behaviour is
needed it is modelled from the spec and marked as such.
-/

namespace PretextCLI

/-- Observable events of one CLI invocation, in order of occurrence:
log output, validation steps, filesystem manipulation, and invocations of
the external transformation engine (`builder.*`), the preview server and
the template scaffolding. -/
inductive Event where
  | logDebug (msg : String)
  | logInfo (msg : String)
  | logWarning (msg : String)
  | logError (msg : String)
  | logCritical (msg : String)
  | xmlSyntaxCheck (source : String)
  | schemaValidate (source : String)
  | ensureDirectory (path : String)
  | rmtree (path : String)
  | callWebwork (source publication output server : String)
  | callDiagrams (source publication assets fmt : String)
  | callHtml (source publication output : String)
  | callLatex (source publication output : String)
  | callPdf (source publication output : String)
  | download (url : String)
  | copytree (src dst : String)
  | copyfile (src dst : String)
  | runServer (dir access : String) (port : Nat)
  | targetView (name access : String) (port : Nat) (watch : Bool)
  deriving DecidableEq, Repr

/-- How a command invocation ends: a normal return of the click command
function, a `sys.exit(msg)`, or an uncaught Python exception (modelled with
a short description of the exception). -/
inductive Outcome where
  | returned
  | exited (msg : String)
  | crashed (msg : String)
  deriving DecidableEq, Repr

/-- One `<target>` element of a project manifest: its `name` attribute and
the text of its optional `source`, `output-dir`, `publication` and `format`
children (`none` models an absent child element). -/
structure TargetEtree where
  name : String
  source : Option String
  outputDir : Option String
  publication : Option String
  format : Option String
  deriving DecidableEq, Repr

/-- A parsed project manifest: the list of `<target>` elements under
`<targets>`, in document order. -/
structure Manifest where
  targets : List TargetEtree
  deriving DecidableEq, Repr

/-- A single-quote character as a string (kept out of string literals). -/
def sq : String := String.singleton (Char.ofNat 39)

/-- Python `f"{x}"` applied to a value that may be `None`. -/
def pyStr : Option String → String
  | none => "None"
  | some s => s

/-- Splits a character list at every occurrence of the separator
(structurally recursive so that concrete runs reduce in the kernel). -/
def splitChar (sep : Char) : List Char → List Char → List (List Char)
  | [], acc => [acc.reverse]
  | c :: rest, acc =>
    if c = sep then acc.reverse :: splitChar sep rest []
    else splitChar sep rest (c :: acc)

/-- Joins character lists with the separator between them. -/
def joinWith (sep : Char) : List (List Char) → List Char
  | [] => []
  | [x] => x
  | x :: rest => x ++ sep :: joinWith sep rest

/-- Python `str.split(":")`. -/
def splitColon (s : String) : List String :=
  (splitChar (Char.ofNat 58) s.data []).map String.mk

/-- Python `":".join(l)`. -/
def joinColon (l : List String) : String :=
  String.mk (joinWith (Char.ofNat 58) (l.map String.data))

/-- Whether a character is whitespace for Python `str.strip()`. -/
def isPySpace (c : Char) : Bool :=
  c = Char.ofNat 32 || c = Char.ofNat 9 || c = Char.ofNat 10 ||
  c = Char.ofNat 13 || c = Char.ofNat 11 || c = Char.ofNat 12

/-- Python `str.strip()`: removes leading and trailing whitespace. -/
def pyStrip (s : String) : String :=
  String.mk (((s.data.dropWhile isPySpace).reverse.dropWhile isPySpace).reverse)

/-- Whether a path string starts with a slash (is absolute). -/
def startsWithSlash (s : String) : Bool :=
  match s.data with
  | c :: _ => c = Char.ofNat 47
  | [] => false

/-- Whether a path string ends with a slash. -/
def endsWithSlash (s : String) : Bool :=
  match s.data.getLast? with
  | some c => c = Char.ofNat 47
  | none => false

/-- `os.path.join` for one extra component (POSIX semantics for the paths
this CLI manipulates). -/
def posixJoin (a b : String) : String :=
  if startsWithSlash b then b
  else if a = "" then b
  else if endsWithSlash a then a ++ b
  else a ++ "/" ++ b

/-- `os.path.dirname` (POSIX semantics: everything before the last slash). -/
def posixDirname (p : String) : String :=
  let parts := splitChar (Char.ofNat 47) p.data []
  if parts.length ≤ 1 then ""
  else String.mk (joinWith (Char.ofNat 47) parts.dropLast)

/-- `os.path.basename` (POSIX semantics: everything after the last slash). -/
def posixBasename (p : String) : String :=
  String.mk ((splitChar (Char.ofNat 47) p.data []).getLastD [])

/-- Whether `path` is the directory `dir` itself or lies inside it. -/
def underDir (dir path : String) : Bool :=
  path == dir || (dir ++ "/").data.isPrefixOf path.data

/-- Environment of one CLI invocation: the state of the filesystem and the
answers of the helper modules that are outside the analysed sources.
Modelled from the spec: `utils.project_path` walks the filesystem for a
project descriptor (`projectManifest` is its result together with the
parsed `project.ptx`; `projectPathAt` is the same locator started from an
explicit directory, used by `new`/`init`); `xmlValid` is the verdict of the
well-formedness check `utils.xml_syntax_check`, which halts the build on
failure; `pubDirs` gives the `external`/`generated` attributes of
`/publication/source/directories` in a publication file, `none` when the
file cannot be parsed or the attributes are missing; the asset counts are
the sizes of the two XPath queries the build performs on the source. -/
structure Env where
  projectManifest : Option (String × Manifest)
  projectPathAt : String → Option String
  isFile : String → Bool
  isDir : String → Bool
  abspath : String → String
  xmlValid : String → Bool
  pubDirs : String → Option (String × String)
  htmlAssetCount : String → Nat
  latexAssetCount : String → Nat
  staticDir : String
  archiveNamelist : String → List String

/-- The command-line arguments of `pretext build`, in the order of the click
options (the `-i` or `--input` flag is bound to the `source` parameter). -/
structure BuildArgs where
  target : Option String
  source : Option String
  output : Option String
  param : List String
  publication : Option String
  webwork : Bool
  diagrams : Bool
  diagramsFormat : String
  onlyAssets : Bool
  pdf : Bool
  deriving DecidableEq, Repr

/-- Modelled from the spec: the CLI ships a built-in template manifest
(`static/templates/project.ptx`), used by `utils.project_xml` as a fallback
when no project manifest exists.  Per the spec, only "html" and "latex" can
be built without a manifest, so the template declares exactly those two
targets, each with the manifest's `source`, `output-dir`, `publication` and
`format` children. -/
def templateManifest : Manifest :=
  { targets :=
      [ { name := "html", source := some "source/main.ptx",
          outputDir := some "output/html",
          publication := some "publication.ptx", format := some "html" },
        { name := "latex", source := some "source/main.ptx",
          outputDir := some "output/latex",
          publication := some "publication.ptx", format := some "latex" } ] }

/-- Modelled from the spec: `utils.project_xml()` parses the project
manifest when one was located, and otherwise falls back to the built-in
template manifest. -/
def projectXml (env : Env) : Manifest :=
  match env.projectManifest with
  | some (_, m) => m
  | none => templateManifest

/-- Modelled from the spec: `utils.target_xml(alias)` returns the first
`<target>` of `utils.project_xml()` whose `name` attribute equals `alias`,
or `None` when there is no match. -/
def targetXml (env : Env) (aliasName : String) : Option TargetEtree :=
  (projectXml env).targets.find? (fun t => t.name == aliasName)

/-- Modelled from the spec: `Project().target(name=n)` (from the missing
`project.py`) looks the named target up in the project manifest, returning
the first target when no name is given and `None` when there is no match. -/
def projectTarget (m : Manifest) (name : Option String) : Option TargetEtree :=
  match name with
  | none => m.targets.head?
  | some n => m.targets.find? (fun t => t.name == n)

/-- Lookup in a Python dict built by a comprehension: the last binding of a
key wins. -/
def dictFind (d : List (String × String)) (k : String) : Option String :=
  (d.reverse.find? (fun kv => kv.1 == k)).map (fun kv => kv.2)

/-- Lines 196-197: `param_list = [p.split(":") for p in param]` and
`stringparams = {p[0].strip(): ":".join(p[1:]).strip() for p in param_list}`. -/
def parseParams (params : List String) : List (String × String) :=
  params.map (fun p =>
    let parts := splitColon p
    (pyStrip (parts.headD ""), pyStrip (joinColon parts.tail)))

/- Message constants (the literal log / exit strings of `cli.py`). -/

def msgNoManifestWarn : String :=
  "No project manifest was found.  Run `pretext init` to generate one."

def msgOnlyHtmlLatex : String :=
  "Without a project manifest, you can only build \"html\" or \"latex\".  Exiting..."

def msgBuildIncomplete : String :=
  "`pretext build` did not complete.  Please try again."

def msgNoSuchTarget : String :=
  "Build target does not exist in project manifest project.ptx"

def msgExiting : String :=
  "Exiting without completing task."

def msgWebworkDefault : String :=
  "No server name, " ++ sq ++ "server" ++ sq ++
  ".  Using default https://webwork-ptx.aimath.org"

def msgHtmlAssets : String :=
  "There are generated images (<latex-image/>, <asymptote/>, or <sageplot/>) or in source, but these will not be (re)built. Run pretext build with the `-d` flag if updates are needed."

def msgLatexAssets : String :=
  "The source has interactive elements or videos that need a preview to be generated, but these will not be (re)built. Run `pretext build` with the `-d` flag if updates are needed."

/-- Modelled from the spec: `utils.xml_syntax_check` quits the build when
the source is not well-formed ("Check for xml syntax errors and quit if
xml invalid"); the exact wording of its exit message lives in the missing
`utils.py`. -/
def msgXmlInvalid : String :=
  "XML syntax error in source; build halted."

def msgAttributeError : String :=
  "AttributeError: NoneType object has no attribute text"

def msgTypeErrorAbspath : String :=
  "TypeError: os.path.abspath received None"

def msgKeyErrorPublisher : String :=
  "KeyError: " ++ sq ++ "publisher" ++ sq

def msgPubParseError : String :=
  "publication file could not be parsed for source directories"

def msgValueErrorTemplate : String :=
  "ValueError: project.ptx is not in list"

def msgNoProjectForView : String :=
  "no project manifest found for Project()"

/-- The configuration state after the manifest-location block of `build`
(lines 134-152): the `manifest` / `manifest_dir` variables and the
possibly still unresolved target, source, output and publication. -/
structure Pre where
  manifest : Option String
  manifestDir : Option String
  target : Option String
  source : Option String
  output : Option String
  publication : Option String
  deriving DecidableEq, Repr

/-- The fully resolved configuration after lines 134-188 of `build`. -/
structure Ctx where
  manifest : Option String
  manifestDir : Option String
  target : String
  source : String
  output : String
  publication : Option String
  targetFormat : String
  deriving DecidableEq, Repr

/-- Lines 134-152 of `build`: locate the manifest; without one, default the
target to "html", the source to "source/main.ptx" and the output to
"output/<target>", and exit unless the target is "html" or "latex".
(The `target_format = target` assignment of line 150 is dead: lines 182-188
reassign `target_format` on every path.) -/
def locateManifest (env : Env) (a : BuildArgs) :
    List Event × Except Outcome Pre :=
  match env.projectManifest with
  | none =>
    let target := a.target.getD "html"
    let source := a.source.getD "source/main.ptx"
    let output := a.output.getD ("output/" ++ target)
    if target ≠ "html" ∧ target ≠ "latex" then
      ([Event.logWarning msgNoManifestWarn, Event.logCritical msgOnlyHtmlLatex],
       Except.error (Outcome.exited msgBuildIncomplete))
    else
      ([Event.logWarning msgNoManifestWarn],
       Except.ok { manifest := none, manifestDir := none, target := some target,
                   source := some source, output := some output,
                   publication := a.publication })
  | some (dir, _) =>
    ([], Except.ok { manifest := some "project.ptx", manifestDir := some dir,
                     target := a.target, source := a.source, output := a.output,
                     publication := a.publication })

/-- Lines 154-162 of `build`: default a missing target to the first target
of `utils.project_xml()` (an `AttributeError` when there is none), then exit
when `utils.target_xml(alias=target)` finds no such target. -/
def resolveTarget (env : Env) (p : Pre) :
    List Event × Except Outcome (String × TargetEtree) :=
  match p.target with
  | some t =>
    match targetXml env t with
    | none =>
      ([Event.logCritical msgNoSuchTarget], Except.error (Outcome.exited msgExiting))
    | some tx => ([], Except.ok (t, tx))
  | none =>
    match (projectXml env).targets.head? with
    | none => ([], Except.error (Outcome.crashed msgAttributeError))
    | some t0 =>
      let t := t0.name
      let ev := [Event.logInfo ("Since no build target was supplied, we will build "
        ++ t ++ ", the first target of the project manifest " ++ pyStr p.manifest
        ++ " in " ++ pyStr p.manifestDir)]
      match targetXml env t with
      | none =>
        (ev ++ [Event.logCritical msgNoSuchTarget],
         Except.error (Outcome.exited msgExiting))
      | some tx => (ev, Except.ok (t, tx))

/-- Lines 164-188 of `build`: pull source, output-dir, publication and
format from the manifest target when they were not supplied on the command
line.  `find(...).text` raises when the `source` or `output-dir` child is
missing (no enclosing `try`); the `publication` and `format` lookups are
wrapped in `try`/`except` and fall back with a warning. -/
def fillFromManifest (pre : Pre) (t : String) (tx : TargetEtree) :
    List Event × Except Outcome Ctx :=
  let dbg := [Event.logDebug ("source = " ++ pyStr pre.source ++ ", output = "
    ++ pyStr pre.output ++ ", publisher = " ++ pyStr pre.publication)]
  match pre.source with
  | none =>
    match tx.source with
    | none => (dbg, Except.error (Outcome.crashed msgAttributeError))
    | some rawSrc => fillSource dbg pre t tx (pyStrip rawSrc)
        [Event.logDebug ("No source provided, using " ++ pyStrip rawSrc
          ++ ", taken from manifest")]
  | some s => fillSource dbg pre t tx s []
where
  /-- continue with the resolved source. -/
  fillSource (dbg : List Event) (pre : Pre) (t : String) (tx : TargetEtree)
      (src : String) (evs : List Event) : List Event × Except Outcome Ctx :=
    match pre.output with
    | none =>
      match tx.outputDir with
      | none => (dbg ++ evs, Except.error (Outcome.crashed msgAttributeError))
      | some rawOut => fillOutput dbg pre t tx src (pyStrip rawOut)
          (evs ++ [Event.logDebug ("No output provided, using " ++ pyStrip rawOut
            ++ ", taken from manifest")])
    | some o => fillOutput dbg pre t tx src o evs
  /-- continue with the resolved output. -/
  fillOutput (dbg : List Event) (pre : Pre) (t : String) (tx : TargetEtree)
      (src out : String) (evs : List Event) : List Event × Except Outcome Ctx :=
    let pubStep : List Event × Option String :=
      match pre.publication with
      | none =>
        match tx.publication with
        | none =>
          ([Event.logWarning ("No publisher file was found in " ++ pyStr pre.manifest
            ++ ", will try to build anyway.")], none)
        | some rawPub =>
          ([Event.logDebug ("No publisher file provided, using " ++ pyStrip rawPub
            ++ ", taken from manifest")], some (pyStrip rawPub))
      | some p => ([], some p)
    let fmtStep : List Event × String :=
      match tx.format with
      | none =>
        ([Event.logWarning ("No format listed in the manifest for the target " ++ t
          ++ ".  Will try to build using " ++ t ++ " as the format.")], t)
      | some rawFmt =>
        ([Event.logDebug ("Setting the target format to " ++ pyStrip rawFmt
          ++ ", taken from manifest for target " ++ t)], pyStrip rawFmt)
    (dbg ++ evs ++ pubStep.1 ++ fmtStep.1,
     Except.ok { manifest := pre.manifest, manifestDir := pre.manifestDir,
                 target := t, source := src, output := out,
                 publication := pubStep.2, targetFormat := fmtStep.2 })

/-- Lines 134-188 of `build`: the full configuration resolution, merging
manifest defaults with command-line overrides. -/
def resolveConfig (env : Env) (a : BuildArgs) : List Event × Except Outcome Ctx :=
  match locateManifest env a with
  | (ev, Except.error o) => (ev, Except.error o)
  | (ev, Except.ok pre) =>
    match resolveTarget env pre with
    | (ev2, Except.error o) => (ev ++ ev2, Except.error o)
    | (ev2, Except.ok (t, tx)) =>
      match fillFromManifest pre t tx with
      | (ev3, r) => (ev ++ ev2 ++ ev3, r)

/-- Lines 198-207 of `build`: a `publisher` string parameter overrides the
resolved publication; the result is made absolute (`os.path.abspath(None)`
raises when nothing resolved a publication); when the file does not exist
the code logs an error that indexes `stringparams['publisher']` - a
`KeyError` when no such parameter was given - and falls back to the bundled
`templates/publication.ptx`. -/
def resolvePublicationFinal (env : Env) (stringparams : List (String × String))
    (publication : Option String) : List Event × Except Outcome String :=
  let publication :=
    match dictFind stringparams "publisher" with
    | some pp => some pp
    | none => publication
  match publication with
  | none => ([], Except.error (Outcome.crashed msgTypeErrorAbspath))
  | some pub0 =>
    let pub := env.abspath pub0
    if env.isFile pub then ([], Except.ok pub)
    else
      match dictFind stringparams "publisher" with
      | none => ([], Except.error (Outcome.crashed msgKeyErrorPublisher))
      | some pp =>
        ([Event.logError ("You or the manifest supplied " ++ pp
          ++ " as a publisher file, but it doesn" ++ sq
          ++ "t exist at that location.  Will try to build anyway.")],
         Except.ok (posixJoin (posixJoin env.staticDir "templates") "publication.ptx"))

/-- The resolved state handed to the dispatch block (lines 226-260):
absolute source and output, the final publication file, the string
parameters, the webwork output directory and the target format. -/
structure Resolved where
  source : String
  output : String
  publication : String
  stringparams : List (String × String)
  webworkOutput : String
  targetFormat : String
  deriving DecidableEq, Repr

/-- Lines 190-224 of `build`: the well-formedness check (which quits on
invalid XML), the schema validation (which only warns), string-parameter
parsing, the final publication resolution, creation of the asset
directories named by the publication file, conversion of source and output
to absolute paths and removal of a pre-existing output directory. -/
def buildStage2 (env : Env) (a : BuildArgs) (c : Ctx) :
    List Event × Except Outcome Resolved :=
  if env.xmlValid c.source = false then
    ([Event.xmlSyntaxCheck c.source], Except.error (Outcome.exited msgXmlInvalid))
  else
    let ev0 := [Event.xmlSyntaxCheck c.source, Event.schemaValidate c.source]
    let stringparams := parseParams a.param
    match resolvePublicationFinal env stringparams c.publication with
    | (evp, Except.error o) => (ev0 ++ evp, Except.error o)
    | (evp, Except.ok pub) =>
      match env.pubDirs pub with
      | none => (ev0 ++ evp, Except.error (Outcome.crashed msgPubParseError))
      | some (ext, gen) =>
        let d1 := env.abspath (posixJoin (posixDirname c.source) ext)
        let d2 := env.abspath (posixJoin (posixDirname c.source) gen)
        let src := env.abspath c.source
        let out := env.abspath c.output
        let rmEv := if env.isDir out then [Event.rmtree out] else []
        (ev0 ++ evp ++ [Event.ensureDirectory d1, Event.ensureDirectory d2] ++ rmEv,
         Except.ok { source := src, output := out, publication := pub,
                     stringparams := stringparams,
                     webworkOutput := posixDirname src,
                     targetFormat := c.targetFormat })

/-- Lines 226-260 of `build`: dispatch to the external engine.  Webwork
processing falls back to the default server with a warning when no `server`
string parameter exists; without `-d`, warnings are emitted when the source
contains assets that will not be rebuilt; then the html, latex or pdf
builder runs unless `--only-assets` was given. -/
def dispatch (env : Env) (a : BuildArgs) (r : Resolved) : List Event :=
  (if a.webwork then
    match dictFind r.stringparams "server" with
    | some sp => [Event.callWebwork r.source r.publication r.webworkOutput sp]
    | none =>
      [Event.logWarning msgWebworkDefault,
       Event.callWebwork r.source r.publication r.webworkOutput
         "https://webwork-ptx.aimath.org"]
   else []) ++
  (if a.diagrams then
    [Event.callDiagrams r.source r.publication "generated-assets" a.diagramsFormat]
   else
    (if 0 < env.htmlAssetCount r.source ∧ r.targetFormat = "html" then
      [Event.logWarning msgHtmlAssets] else []) ++
    (if 0 < env.latexAssetCount r.source ∧ r.targetFormat = "latex" then
      [Event.logWarning msgLatexAssets] else [])) ++
  (if r.targetFormat = "html" ∧ ¬a.onlyAssets then
    [Event.callHtml r.source r.publication r.output] else []) ++
  (if r.targetFormat = "latex" ∧ ¬a.onlyAssets then
    [Event.callLatex r.source r.publication r.output] else []) ++
  (if r.targetFormat = "pdf" ∧ ¬a.onlyAssets then
    [Event.callPdf r.source r.publication r.output] else [])

/-- The whole `pretext build` command (lines 126-260 of `cli.py`). -/
def build (env : Env) (a : BuildArgs) : List Event × Outcome :=
  match resolveConfig env a with
  | (ev, Except.error o) => (ev, o)
  | (ev, Except.ok c) =>
    match buildStage2 env a c with
    | (ev2, Except.error o) => (ev ++ ev2, o)
    | (ev2, Except.ok r) => (ev ++ ev2 ++ dispatch env a r, Outcome.returned)

/-- The `pretext new` command (lines 58-88 of `cli.py`): warn and return
when a project already exists at the requested directory; otherwise fetch
the template archive (from a URL or from the bundled templates), locate the
first `project.ptx` inside it and copy that subtree into the directory. -/
def new (env : Env) (template : String) (directory : String)
    (urlTemplate : Option String) : List Event × Outcome :=
  let dirFull := env.abspath directory
  match env.projectPathAt dirFull with
  | some p =>
    ([Event.logWarning ("A project already exists in `" ++ p ++ "`."),
      Event.logWarning "No new project will be generated."], Outcome.returned)
  | none =>
    let ev0 := [Event.logInfo ("Generating new PreTeXt project in `" ++ dirFull
      ++ "` using `" ++ template ++ "` template.")]
    let acq : List Event × String :=
      match urlTemplate with
      | some u => ([Event.download u], u)
      | none =>
        ([], posixJoin (posixJoin env.staticDir "templates") (template ++ ".zip"))
    let names := env.archiveNamelist acq.2
    match (names.map posixBasename).findIdx? (fun n => n == "project.ptx") with
    | none => (ev0 ++ acq.1, Outcome.crashed msgValueErrorTemplate)
    | some i =>
      let projectDirPath := posixDirname (names.getD i "")
      (ev0 ++ acq.1 ++
        [Event.copytree projectDirPath directory,
         Event.logInfo ("Success! Open `" ++ dirFull
           ++ "/source/main.ptx` to edit your document"),
         Event.logInfo ("Then try to `pretext build` and `pretext view` from within `"
           ++ dirFull ++ "`.")], Outcome.returned)

/-- The `pretext init` command (lines 92-108 of `cli.py`): warn and return
when a project already exists in the current directory; otherwise copy the
bundled template manifest to `project.ptx`. -/
def init (env : Env) : List Event × Outcome :=
  let dirFull := env.abspath "."
  match env.projectPathAt dirFull with
  | some p =>
    ([Event.logWarning ("A project already exists in `" ++ p ++ "`."),
      Event.logWarning "No project manifest will be generated."], Outcome.returned)
  | none =>
    let manifestPath := posixJoin (posixJoin env.staticDir "templates") "project.ptx"
    let projectPtxPath := posixJoin dirFull "project.ptx"
    ([Event.logInfo ("Generating new PreTeXt manifest in `" ++ dirFull ++ "`."),
      Event.copyfile manifestPath projectPtxPath,
      Event.logInfo ("Success! Open `" ++ projectPtxPath ++ "` to edit your manifest."),
      Event.logInfo "Edit your <target/>s to point to your PreTeXt source and publication files."],
     Outcome.returned)

/-- The `pretext view` command (lines 296-311 of `cli.py`): serve an
explicit directory when given; otherwise look the target up via
`Project().target(name=...)`, start its preview when found, and otherwise
log an error and return.  (Modelled from the spec: `Project()` reads the
project manifest; with no project there is nothing to construct it from.) -/
def view (env : Env) (target : Option String) (access : String) (port : Nat)
    (directory : Option String) (watch : Bool) : List Event × Outcome :=
  match directory with
  | some d => ([Event.runServer d access port], Outcome.returned)
  | none =>
    match env.projectManifest with
    | none => ([], Outcome.crashed msgNoProjectForView)
    | some (_, m) =>
      match projectTarget m target with
      | some t => ([Event.targetView t.name access port watch], Outcome.returned)
      | none =>
        ([Event.logError ("Target `" ++ pyStr target ++ "` could not be found.")],
         Outcome.returned)

/-! Filesystem semantics of the event trace, for the frame claims.  A
filesystem maps a path to the contents of the file stored there (`none`
when no file exists at that path). -/

/-- Directory roots an event may modify files under (`[]` for events with
no effect on file contents; `ensureDirectory` creates directory entries
only and never touches file contents). -/
def writeRoots : Event → List String
  | Event.rmtree p => [p]
  | Event.callWebwork _ _ out _ => [out]
  | Event.callDiagrams _ _ assets _ => [assets]
  | Event.callHtml _ _ out => [out]
  | Event.callLatex _ _ out => [out]
  | Event.callPdf _ _ out => [out]
  | Event.copytree _ dst => [dst]
  | Event.copyfile _ dst => [dst]
  | _ => []

/-- Effect of one event on the filesystem.  `rmtree` removes the whole
tree.  Modelled from the spec: the external engine produces its output
artifacts inside the directory it is handed (the webwork builder writes
`webwork-representations.ptx` into its output directory, the diagram and
document builders write under theirs); we model every path under that
directory as (re)written.  `copyfile` copies exact contents; `copytree`
installs template files under the destination. -/
def applyEvent (fs : String → Option String) (e : Event) : String → Option String :=
  match e with
  | Event.rmtree p => fun x => if underDir p x then none else fs x
  | Event.callWebwork _ _ out _ =>
    fun x => if underDir out x then some "<engine output>" else fs x
  | Event.callDiagrams _ _ assets _ =>
    fun x => if underDir assets x then some "<engine output>" else fs x
  | Event.callHtml _ _ out =>
    fun x => if underDir out x then some "<engine output>" else fs x
  | Event.callLatex _ _ out =>
    fun x => if underDir out x then some "<engine output>" else fs x
  | Event.callPdf _ _ out =>
    fun x => if underDir out x then some "<engine output>" else fs x
  | Event.copytree _ dst =>
    fun x => if underDir dst x then some "<template files>" else fs x
  | Event.copyfile src dst => fun x => if x == dst then fs src else fs x
  | _ => fs

/-- Effect of a whole trace on the filesystem. -/
def applyEvents (fs : String → Option String) (evs : List Event) :
    String → Option String :=
  evs.foldl applyEvent fs

/-- The directory roots a `build` invocation may write under: the resolved
absolute output directory, the `generated-assets` directory handed to the
diagrams builder, and the source file's directory (webwork output). -/
def buildWriteRoots (env : Env) (a : BuildArgs) : List String :=
  match resolveConfig env a with
  | (_, Except.error _) => []
  | (_, Except.ok c) =>
    [env.abspath c.output, "generated-assets",
     posixDirname (env.abspath c.source)]

/-- Whether an event is an invocation of the external transformation engine
(one of the five `builder.*` calls). -/
def isEngineCall : Event → Bool
  | Event.callWebwork _ _ _ _ => true
  | Event.callDiagrams _ _ _ _ => true
  | Event.callHtml _ _ _ => true
  | Event.callLatex _ _ _ => true
  | Event.callPdf _ _ _ => true
  | _ => false

/-- Whether an event is the well-formedness check `utils.xml_syntax_check`. -/
def isSyntaxCheckEv : Event → Bool
  | Event.xmlSyntaxCheck _ => true
  | _ => false

/-- Whether an event is the schema validation `utils.schema_validate`. -/
def isSchemaValidateEv : Event → Bool
  | Event.schemaValidate _ => true
  | _ => false

/-- The publication file recorded in an engine-call event. -/
def eventPublication : Event → Option String
  | Event.callWebwork _ p _ _ => some p
  | Event.callDiagrams _ p _ _ => some p
  | Event.callHtml _ p _ => some p
  | Event.callLatex _ p _ => some p
  | Event.callPdf _ p _ => some p
  | _ => none

/-- Whether an outcome is a `sys.exit`. -/
def isExitOutcome : Outcome → Bool
  | Outcome.exited _ => true
  | _ => false

/-- Scans a trace and checks that every engine call is preceded by both the
well-formedness check and the schema validation; the flags record which of
the two have already been seen. -/
def checksPrecedeCalls (syn sch : Bool) : List Event → Bool
  | [] => true
  | e :: rest =>
    if isEngineCall e then
      syn && sch && checksPrecedeCalls syn sch rest
    else
      checksPrecedeCalls (syn || isSyntaxCheckEv e) (sch || isSchemaValidateEv e) rest

/-- Scans a trace and checks that no engine call occurs before the removal
of the directory `out`; once `Event.rmtree out` is seen the rest of the
trace is unconstrained. -/
def rmtreePrecedesCalls (out : String) : List Event → Bool
  | [] => true
  | e :: rest =>
    if isEngineCall e then false
    else if e = Event.rmtree out then true
    else rmtreePrecedesCalls out rest

/-- Whether an event is plain log output (no effect beyond the console). -/
def isLogEvent : Event → Bool
  | Event.logDebug _ => true
  | Event.logInfo _ => true
  | Event.logWarning _ => true
  | Event.logError _ => true
  | Event.logCritical _ => true
  | _ => false

/-- Whether a trace contains no invocation of the external engine. -/
def noCalls (evs : List Event) : Bool :=
  evs.all (fun e => !isEngineCall e)

/-- Whether every directory root written by a trace belongs to `allowed`. -/
def rootsIn (evs : List Event) (allowed : List String) : Bool :=
  evs.all (fun e => (writeRoots e).all (fun r => decide (r ∈ allowed)))

/-- Whether every event of a trace is plain log output. -/
def allLog (evs : List Event) : Bool :=
  evs.all isLogEvent

/-- Whether every engine call of a trace records the given publication. -/
def pubsOk (evs : List Event) (pub : String) : Bool :=
  evs.all (fun e => !isEngineCall e || (eventPublication e == some pub))

/-! Concrete fixtures used to witness the theorems on sample invocations. -/

/-- A sample manifest target named "html" with all four child elements. -/
def demoTargetHtml : TargetEtree :=
  { name := "html", source := some "source/main.ptx",
    outputDir := some "output/html",
    publication := some "publication.ptx", format := some "html" }

/-- A sample project manifest with the single target `demoTargetHtml`. -/
def demoManifest : Manifest :=
  { targets := [demoTargetHtml] }

/-- A sample environment: a project at `/proj` with manifest `demoManifest`,
whose publication file exists and whose html output directory already
exists on disk. -/
def demoEnv : Env :=
  { projectManifest := some ("/proj", demoManifest),
    projectPathAt := fun _ => some "/proj",
    isFile := fun s => s == "/proj/publication.ptx",
    isDir := fun s => s == "/proj/output/html",
    abspath := fun s => if startsWithSlash s then s else "/proj/" ++ s,
    xmlValid := fun _ => true,
    pubDirs := fun _ => some ("external", "generated"),
    htmlAssetCount := fun _ => 0,
    latexAssetCount := fun _ => 0,
    staticDir := "/static",
    archiveNamelist := fun _ => ["book/project.ptx", "book/source/main.ptx"] }

/-- A sample `pretext build html` invocation with no further flags. -/
def demoArgs : BuildArgs :=
  { target := some "html", source := none, output := none, param := [],
    publication := none, webwork := false, diagrams := false,
    diagramsFormat := "svg", onlyAssets := false, pdf := false }

/-- The configuration that `resolveConfig` produces for `demoEnv` and
`demoArgs`. -/
def demoCtx : Ctx :=
  { manifest := some "project.ptx", manifestDir := some "/proj",
    target := "html", source := "source/main.ptx", output := "output/html",
    publication := some "publication.ptx", targetFormat := "html" }

/-- The sample environment where no file exists at any path. -/
def noPubFileEnv : Env :=
  { demoEnv with isFile := fun _ => false }

/-- A `pretext build html -i s.ptx -o /out -p pub.ptx` invocation: explicit
source, output and publication, no string parameters. -/
def pubFlagArgs : BuildArgs :=
  { demoArgs with
      source := some "s.ptx", output := some "/out",
      publication := some "pub.ptx" }

/-- The sample environment where the project root `/proj` itself is a
directory that exists (so an output directory resolved to `/proj` gets
removed). -/
def outputAtRootEnv : Env :=
  { demoEnv with isDir := fun s => s == "/proj" }

/-- A `pretext build html -o /proj --only-assets` invocation: the output
directory is the project root. -/
def outputAtRootArgs : BuildArgs :=
  { demoArgs with output := some "/proj", onlyAssets := true }

/-- A `pretext build html --param publisher:mypub.ptx` invocation. -/
def publisherArgs : BuildArgs :=
  { demoArgs with param := ["publisher:mypub.ptx"] }

/-- A `pretext build html -i S.ptx` invocation. -/
def sourceFlagArgs : BuildArgs :=
  { demoArgs with source := some "S.ptx" }

/-- The sample environment with no project manifest anywhere. -/
def noManifestEnv : Env :=
  { demoEnv with projectManifest := none }

/-- A sample filesystem holding only the project manifest. -/
def fsDemo : String → Option String :=
  fun p => if p == "/proj/project.ptx" then some "<manifest>" else none

/-! Helper lemmas about the embedding. -/

theorem isLogEvent_not_call {e : Event} (h : isLogEvent e = true) :
    isEngineCall e = false ∧ isSyntaxCheckEv e = false ∧
    isSchemaValidateEv e = false ∧ writeRoots e = [] := by
  cases e <;> simp_all [isLogEvent, isEngineCall, isSyntaxCheckEv,
    isSchemaValidateEv, writeRoots]

theorem allLog_append (l1 l2 : List Event) :
    allLog (l1 ++ l2) = (allLog l1 && allLog l2) := by
  simp [allLog, List.all_append]

theorem allLog_mem {evs : List Event} (h : allLog evs = true) :
    ∀ e ∈ evs, isLogEvent e = true := by
  intro e he
  have := List.all_eq_true.mp h
  exact this e he

theorem locateManifest_allLog (env : Env) (a : BuildArgs) :
    allLog (locateManifest env a).1 = true := by
  unfold locateManifest
  split
  · dsimp only
    split <;> rfl
  · rfl

theorem resolveTarget_allLog (env : Env) (p : Pre) :
    allLog (resolveTarget env p).1 = true := by
  unfold resolveTarget
  split
  · split <;> rfl
  · split
    · rfl
    · dsimp only
      split <;> rfl

theorem fillOutput_allLog (dbg : List Event) (pre : Pre) (t : String)
    (tx : TargetEtree) (src out : String) (evs : List Event)
    (hd : allLog dbg = true) (hv : allLog evs = true) :
    allLog (fillFromManifest.fillOutput dbg pre t tx src out evs).1 = true := by
  unfold fillFromManifest.fillOutput
  dsimp only
  simp only [allLog_append, hd, hv, Bool.true_and, Bool.and_eq_true]
  constructor
  · split
    · split <;> rfl
    · rfl
  · split <;> rfl

theorem fillSource_allLog (dbg : List Event) (pre : Pre) (t : String)
    (tx : TargetEtree) (src : String) (evs : List Event)
    (hd : allLog dbg = true) (hv : allLog evs = true) :
    allLog (fillFromManifest.fillSource dbg pre t tx src evs).1 = true := by
  unfold fillFromManifest.fillSource
  split
  · split
    · simp only [allLog_append, hd, hv, Bool.true_and]
    · refine fillOutput_allLog _ _ _ _ _ _ _ hd ?_
      simp only [allLog_append, hv, Bool.true_and]
      rfl
  · exact fillOutput_allLog _ _ _ _ _ _ _ hd hv

theorem fillFromManifest_allLog (pre : Pre) (t : String) (tx : TargetEtree) :
    allLog (fillFromManifest pre t tx).1 = true := by
  unfold fillFromManifest
  split
  · split
    · rfl
    · exact fillSource_allLog _ _ _ _ _ _ rfl rfl
  · exact fillSource_allLog _ _ _ _ _ _ rfl rfl

theorem resolveConfig_allLog (env : Env) (a : BuildArgs) :
    allLog (resolveConfig env a).1 = true := by
  unfold resolveConfig
  rcases h1 : locateManifest env a with ⟨ev1, r1⟩
  have H1 : allLog ev1 = true := by
    have := locateManifest_allLog env a
    rw [h1] at this
    exact this
  rcases r1 with o | pre
  · exact H1
  · dsimp only
    rcases h2 : resolveTarget env pre with ⟨ev2, r2⟩
    have H2 : allLog ev2 = true := by
      have := resolveTarget_allLog env pre
      rw [h2] at this
      exact this
    rcases r2 with o | ⟨t, tx⟩
    · simp only [allLog_append, H1, H2, Bool.and_self]
    · have H3 : allLog (fillFromManifest pre t tx).1 = true :=
        fillFromManifest_allLog pre t tx
      simp only [allLog_append, H1, H2, H3, Bool.and_self]

theorem noCalls_append (l1 l2 : List Event) :
    noCalls (l1 ++ l2) = (noCalls l1 && noCalls l2) := by
  simp [noCalls, List.all_append]

theorem rootsIn_append (l1 l2 : List Event) (al : List String) :
    rootsIn (l1 ++ l2) al = (rootsIn l1 al && rootsIn l2 al) := by
  simp [rootsIn, List.all_append]

theorem allLog_noCalls {evs : List Event} (h : allLog evs = true) :
    noCalls evs = true := by
  simp only [noCalls, List.all_eq_true]
  intro e he
  have := (isLogEvent_not_call (allLog_mem h e he)).1
  simp [this]

theorem allLog_rootsIn {evs : List Event} (h : allLog evs = true)
    (al : List String) : rootsIn evs al = true := by
  simp only [rootsIn, List.all_eq_true]
  intro e he
  have := (isLogEvent_not_call (allLog_mem h e he)).2.2.2
  simp [this]

theorem rootsIn_mono {evs : List Event} {al al2 : List String}
    (h : rootsIn evs al = true) (hsub : ∀ r ∈ al, r ∈ al2) :
    rootsIn evs al2 = true := by
  simp only [rootsIn, List.all_eq_true, decide_eq_true_eq] at h ⊢
  intro e he r hr
  exact hsub r (h e he r hr)

theorem resolvePublicationFinal_allLog (env : Env)
    (sp : List (String × String)) (pub : Option String) :
    allLog (resolvePublicationFinal env sp pub).1 = true := by
  unfold resolvePublicationFinal
  dsimp only
  split
  · rfl
  · split
    · rfl
    · split <;> rfl

theorem buildStage2_noCalls (env : Env) (a : BuildArgs) (c : Ctx) :
    noCalls (buildStage2 env a c).1 = true := by
  unfold buildStage2
  split
  · rfl
  · dsimp only
    rcases hr : resolvePublicationFinal env (parseParams a.param) c.publication
      with ⟨evp, rp⟩
    try rw [hr]
    have hp : noCalls evp = true := by
      have := allLog_noCalls
        (resolvePublicationFinal_allLog env (parseParams a.param) c.publication)
      rw [hr] at this
      exact this
    rcases rp with o | pub <;> dsimp only
    · simp only [noCalls_append, hp, Bool.and_true]
      rfl
    · rcases hd : env.pubDirs pub with _ | ⟨ext, gen⟩ <;> try rw [hd]
      · simp only [noCalls_append, hp, Bool.and_true]
        rfl
      · dsimp only
        simp only [noCalls_append, hp]
        split <;> simp [noCalls, isEngineCall]

theorem buildStage2_rootsIn (env : Env) (a : BuildArgs) (c : Ctx) :
    rootsIn (buildStage2 env a c).1 [env.abspath c.output] = true := by
  unfold buildStage2
  split
  · rfl
  · dsimp only
    rcases hr : resolvePublicationFinal env (parseParams a.param) c.publication
      with ⟨evp, rp⟩
    try rw [hr]
    have hp : rootsIn evp [env.abspath c.output] = true := by
      have := allLog_rootsIn
        (resolvePublicationFinal_allLog env (parseParams a.param) c.publication)
        [env.abspath c.output]
      rw [hr] at this
      exact this
    rcases rp with o | pub <;> dsimp only
    · simp only [rootsIn_append, hp, Bool.and_true]
      rfl
    · rcases hd : env.pubDirs pub with _ | ⟨ext, gen⟩ <;> try rw [hd]
      · simp only [rootsIn_append, hp, Bool.and_true]
        rfl
      · dsimp only
        simp only [rootsIn_append, hp]
        split <;> simp [rootsIn, writeRoots]

theorem buildStage2_ok_shape (env : Env) (a : BuildArgs) (c : Ctx)
    (ev2 : List Event) (r : Resolved)
    (h : buildStage2 env a c = (ev2, Except.ok r)) :
    r.output = env.abspath c.output ∧ r.source = env.abspath c.source ∧
    r.webworkOutput = posixDirname (env.abspath c.source) ∧
    r.targetFormat = c.targetFormat ∧ r.stringparams = parseParams a.param ∧
    (resolvePublicationFinal env (parseParams a.param) c.publication).2 =
      Except.ok r.publication ∧
    (∃ rest, ev2 = Event.xmlSyntaxCheck c.source ::
      Event.schemaValidate c.source :: rest) := by
  unfold buildStage2 at h
  split at h
  · exact absurd (congrArg Prod.snd h) (by simp)
  · dsimp only at h
    rcases hr : resolvePublicationFinal env (parseParams a.param) c.publication
      with ⟨evp, rp⟩
    rw [hr] at h
    rcases rp with o | pub <;> dsimp only at h
    · exact absurd (congrArg Prod.snd h) (by simp)
    · rcases hd : env.pubDirs pub with _ | ⟨ext, gen⟩ <;> rw [hd] at h
      · exact absurd (congrArg Prod.snd h) (by simp)
      · dsimp only at h
        have h1 := congrArg Prod.fst h
        have h2 := congrArg Prod.snd h
        simp only at h1 h2
        have hrr : r =
            { source := env.abspath c.source,
              output := env.abspath c.output, publication := pub,
              stringparams := parseParams a.param,
              webworkOutput := posixDirname (env.abspath c.source),
              targetFormat := c.targetFormat } :=
          ((Except.ok.injEq _ _).mp h2.symm)
        subst hrr
        refine ⟨rfl, rfl, rfl, rfl, rfl, rfl, ?_⟩
        refine ⟨evp ++ [Event.ensureDirectory (env.abspath (posixJoin (posixDirname c.source) ext)),
          Event.ensureDirectory (env.abspath (posixJoin (posixDirname c.source) gen))] ++
          (if env.isDir (env.abspath c.output) then [Event.rmtree (env.abspath c.output)] else []), ?_⟩
        rw [← h1]
        simp

theorem dispatch_rootsIn (env : Env) (a : BuildArgs) (r : Resolved) :
    rootsIn (dispatch env a r)
      [r.webworkOutput, "generated-assets", r.output] = true := by
  unfold dispatch
  simp only [rootsIn_append, Bool.and_eq_true]
  refine ⟨⟨⟨⟨?_, ?_⟩, ?_⟩, ?_⟩, ?_⟩
  · split
    · split <;> simp [rootsIn, writeRoots]
    · rfl
  · split
    · simp [rootsIn, writeRoots]
    · rw [rootsIn_append]
      simp only [Bool.and_eq_true]
      constructor <;> split <;> rfl
  · split
    · simp [rootsIn, writeRoots]
    · rfl
  · split
    · simp [rootsIn, writeRoots]
    · rfl
  · split
    · simp [rootsIn, writeRoots]
    · rfl

theorem cpc_cons (syn sch : Bool) (e : Event) (rest : List Event) :
    checksPrecedeCalls syn sch (e :: rest) =
      if isEngineCall e then syn && sch && checksPrecedeCalls syn sch rest
      else checksPrecedeCalls (syn || isSyntaxCheckEv e)
        (sch || isSchemaValidateEv e) rest := rfl

theorem rpc_cons (out : String) (e : Event) (rest : List Event) :
    rmtreePrecedesCalls out (e :: rest) =
      if isEngineCall e then false
      else if e = Event.rmtree out then true
      else rmtreePrecedesCalls out rest := rfl

theorem cpc_true_true (l : List Event) :
    checksPrecedeCalls true true l = true := by
  induction l with
  | nil => rfl
  | cons e rest ih =>
    unfold checksPrecedeCalls
    split <;> simp [ih]

theorem cpc_of_noCalls {l : List Event} (h : noCalls l = true) :
    ∀ syn sch, checksPrecedeCalls syn sch l = true := by
  induction l with
  | nil => intro syn sch; rfl
  | cons e rest ih =>
    intro syn sch
    simp only [noCalls, List.all_cons, Bool.and_eq_true] at h
    have hc : isEngineCall e = false := by
      have := h.1
      simp at this
      simp [this]
    have hr : noCalls rest = true := h.2
    unfold checksPrecedeCalls
    rw [hc]
    simp only [Bool.false_eq_true, if_false]
    exact ih hr _ _

theorem cpc_skip_allLog {l1 : List Event} (h : allLog l1 = true)
    (l2 : List Event) (syn sch : Bool) :
    checksPrecedeCalls syn sch (l1 ++ l2) = checksPrecedeCalls syn sch l2 := by
  induction l1 generalizing syn sch with
  | nil => rfl
  | cons e rest ih =>
    simp only [allLog, List.all_cons, Bool.and_eq_true] at h
    have hc := isLogEvent_not_call h.1
    have hrest : allLog rest = true := h.2
    rw [List.cons_append, cpc_cons, hc.1, hc.2.1, hc.2.2.1]
    simp only [Bool.false_eq_true, if_false, Bool.or_false]
    exact ih hrest _ _

theorem rpc_skip_noCalls {l1 : List Event} (h : noCalls l1 = true)
    (out : String) (l2 : List Event)
    (h2 : rmtreePrecedesCalls out l2 = true) :
    rmtreePrecedesCalls out (l1 ++ l2) = true := by
  induction l1 with
  | nil => simpa using h2
  | cons e rest ih =>
    simp only [noCalls, List.all_cons, Bool.and_eq_true] at h
    have hc : isEngineCall e = false := by
      have := h.1
      simp at this
      simp [this]
    rw [List.cons_append, rpc_cons, hc]
    simp only [Bool.false_eq_true, if_false]
    split
    · rfl
    · exact ih h.2

theorem applyEvent_preserves {e : Event} {x : String}
    (h : ∀ r ∈ writeRoots e, underDir r x = false) (fs : String → Option String) :
    applyEvent fs e x = fs x := by
  cases e <;>
    first
      | rfl
      | (simp only [writeRoots, List.mem_singleton, forall_eq] at h
         first
           | (simp [applyEvent, h]
              done)
           | (simp only [underDir] at h
              have hb := (Bool.or_eq_false_iff.mp h).1
              simp [applyEvent, hb]))

theorem applyEvents_preserves_of_rootsIn {evs : List Event} {al : List String}
    {x : String} (hin : rootsIn evs al = true)
    (hal : ∀ r ∈ al, underDir r x = false) (fs : String → Option String) :
    applyEvents fs evs x = fs x := by
  induction evs generalizing fs with
  | nil => rfl
  | cons e rest ih =>
    simp only [rootsIn, List.all_cons, Bool.and_eq_true] at hin
    have hroots : ∀ r ∈ writeRoots e, underDir r x = false := by
      intro r hr
      have := List.all_eq_true.mp hin.1 r hr
      simp only [decide_eq_true_eq] at this
      exact hal r this
    have he : applyEvent fs e x = fs x := applyEvent_preserves hroots fs
    show applyEvents (applyEvent fs e) rest x = fs x
    rw [ih hin.2 (applyEvent fs e), he]

theorem resolvePublicationFinal_error_not_returned (env : Env)
    (sp : List (String × String)) (pub : Option String) (o : Outcome)
    (h : (resolvePublicationFinal env sp pub).2 = Except.error o) :
    o ≠ Outcome.returned := by
  unfold resolvePublicationFinal at h
  dsimp only at h
  split at h
  · simp at h
    subst h
    simp
  · split at h
    · simp at h
    · split at h
      · simp at h
        subst h
        simp
      · simp at h

theorem buildStage2_error_not_returned (env : Env) (a : BuildArgs) (c : Ctx)
    (o : Outcome) (h : (buildStage2 env a c).2 = Except.error o) :
    o ≠ Outcome.returned := by
  unfold buildStage2 at h
  split at h
  · simp at h
    subst h
    simp
  · dsimp only at h
    rcases hr : resolvePublicationFinal env (parseParams a.param) c.publication
      with ⟨evp, rp⟩
    rw [hr] at h
    rcases rp with o2 | pub <;> dsimp only at h
    · simp at h
      subst h
      have := resolvePublicationFinal_error_not_returned env (parseParams a.param)
        c.publication o2 (by rw [hr])
      exact this
    · rcases hd : env.pubDirs pub with _ | ⟨ext, gen⟩ <;> rw [hd] at h <;>
        dsimp only at h
      · simp at h
        subst h
        simp
      · simp at h

theorem build_rootsIn (env : Env) (a : BuildArgs) :
    rootsIn (build env a).1 (buildWriteRoots env a) = true := by
  unfold build buildWriteRoots
  rcases h1 : resolveConfig env a with ⟨ev1, r1⟩
  have H1 : allLog ev1 = true := by
    have := resolveConfig_allLog env a
    rw [h1] at this
    exact this
  rcases r1 with o | c <;> dsimp only
  · exact allLog_rootsIn H1 _
  · rcases h2 : buildStage2 env a c with ⟨ev2, r2⟩
    have H2 : rootsIn ev2 [env.abspath c.output] = true := by
      have := buildStage2_rootsIn env a c
      rw [h2] at this
      exact this
    have H2b : rootsIn ev2 [env.abspath c.output, "generated-assets",
        posixDirname (env.abspath c.source)] = true := by
      refine rootsIn_mono H2 ?_
      intro r hr
      simp only [List.mem_singleton] at hr
      simp [hr]
    rcases r2 with o | r <;> dsimp only
    · rw [rootsIn_append]
      simp [allLog_rootsIn H1, H2b]
    · have hsh := buildStage2_ok_shape env a c ev2 r h2
      have H3 : rootsIn (dispatch env a r) [env.abspath c.output,
          "generated-assets", posixDirname (env.abspath c.source)] = true := by
        refine rootsIn_mono (dispatch_rootsIn env a r) ?_
        intro x hx
        simp at hx
        rcases hx with h | h | h
        · rw [h, hsh.2.2.1]
          simp
        · rw [h]
          simp
        · rw [h, hsh.1]
          simp
      rw [rootsIn_append, rootsIn_append]
      simp [allLog_rootsIn H1, H2b, H3]

theorem build_eq_resolve_error (env : Env) (a : BuildArgs) {ev1 : List Event}
    {o : Outcome} (h : resolveConfig env a = (ev1, Except.error o)) :
    build env a = (ev1, o) := by
  unfold build
  rw [h]

theorem build_eq_stage2_error (env : Env) (a : BuildArgs) {ev1 ev2 : List Event}
    {c : Ctx} {o : Outcome} (h1 : resolveConfig env a = (ev1, Except.ok c))
    (h2 : buildStage2 env a c = (ev2, Except.error o)) :
    build env a = (ev1 ++ ev2, o) := by
  unfold build
  rw [h1]
  dsimp only
  rw [h2]

theorem build_eq_ok (env : Env) (a : BuildArgs) {ev1 ev2 : List Event}
    {c : Ctx} {r : Resolved} (h1 : resolveConfig env a = (ev1, Except.ok c))
    (h2 : buildStage2 env a c = (ev2, Except.ok r)) :
    build env a = (ev1 ++ ev2 ++ dispatch env a r, Outcome.returned) := by
  unfold build
  rw [h1]
  dsimp only
  rw [h2]

/-- C2: for every invocation of the build command when no project manifest
is found and the explicitly supplied target is neither "html" nor "latex",
the program logs a critical user-facing message and terminates via
`sys.exit`, and the external transformation engine is never invoked. -/
theorem build_no_manifest_invalid_target_exits (env : Env) (a : BuildArgs)
    (t : String) (hm : env.projectManifest = none) (ht : a.target = some t)
    (h1 : t ≠ "html") (h2 : t ≠ "latex") :
    build env a =
      ([Event.logWarning msgNoManifestWarn, Event.logCritical msgOnlyHtmlLatex],
        Outcome.exited msgBuildIncomplete) ∧
    ∀ e ∈ (build env a).1, isEngineCall e = false := by
  have hL : locateManifest env a =
      ([Event.logWarning msgNoManifestWarn, Event.logCritical msgOnlyHtmlLatex],
        Except.error (Outcome.exited msgBuildIncomplete)) := by
    unfold locateManifest
    rw [hm]
    dsimp only
    rw [ht]
    simp only [Option.getD_some]
    rw [if_pos ⟨h1, h2⟩]
  have hR : resolveConfig env a =
      ([Event.logWarning msgNoManifestWarn, Event.logCritical msgOnlyHtmlLatex],
        Except.error (Outcome.exited msgBuildIncomplete)) := by
    unfold resolveConfig
    rw [hL]
  have hB := build_eq_resolve_error env a hR
  refine ⟨hB, ?_⟩
  rw [hB]
  intro e he
  simp only [List.mem_cons, List.not_mem_nil, or_false] at he
  rcases he with h | h <;> rw [h] <;> rfl

/-- C3: for every invocation of the build command with a manifest present
whose explicitly supplied target name has no `<target>` in the project
manifest, the program logs a critical diagnostic and terminates via
`sys.exit` without invoking any builder; when no target name is supplied,
the resolved name is the manifest's first target, whose lookup always
succeeds. -/
theorem build_target_not_in_manifest_exits (env : Env) (a : BuildArgs)
    (dir : String) (m : Manifest) (t : String)
    (hm : env.projectManifest = some (dir, m)) (ht : a.target = some t)
    (hx : targetXml env t = none) :
    build env a = ([Event.logCritical msgNoSuchTarget], Outcome.exited msgExiting) ∧
    (∀ e ∈ (build env a).1, isEngineCall e = false) ∧
    (∀ (env2 : Env) (t0 : TargetEtree),
      (projectXml env2).targets.head? = some t0 →
      targetXml env2 t0.name = some t0) := by
  have hL : locateManifest env a = ([], Except.ok
      { manifest := some "project.ptx", manifestDir := some dir,
        target := a.target, source := a.source, output := a.output,
        publication := a.publication }) := by
    unfold locateManifest
    rw [hm]
  have hR : resolveConfig env a =
      ([Event.logCritical msgNoSuchTarget], Except.error (Outcome.exited msgExiting)) := by
    unfold resolveConfig
    rw [hL]
    dsimp only
    unfold resolveTarget
    dsimp only
    rw [ht]
    dsimp only
    rw [hx]
    simp
  have hB := build_eq_resolve_error env a hR
  refine ⟨hB, ?_, ?_⟩
  · rw [hB]
    intro e he
    simp only [List.mem_cons, List.not_mem_nil, or_false] at he
    rw [he]
    rfl
  · intro env2 t0 hh
    unfold targetXml
    rcases hl : (projectXml env2).targets with _ | ⟨t1, rest⟩ <;> rw [hl] at hh
    · simp at hh
    · simp only [List.head?_cons, Option.some.injEq] at hh
      subst hh
      simp [List.find?]

/-- C6: for every invocation of the build command, both the source's XML
well-formedness check and its schema validation occur in the event trace
before any invocation of the external transformation engine (the webwork,
diagrams, html, latex and pdf builders); the engine is never invoked
without prior validation. -/
theorem build_validates_before_dispatch (env : Env) (a : BuildArgs) :
    checksPrecedeCalls false false (build env a).1 = true := by
  rcases h1 : resolveConfig env a with ⟨ev1, r1⟩
  have H1 : allLog ev1 = true := by
    have := resolveConfig_allLog env a
    rw [h1] at this
    exact this
  rcases r1 with o | c
  · rw [build_eq_resolve_error env a h1]
    exact cpc_of_noCalls (allLog_noCalls H1) _ _
  · rcases h2 : buildStage2 env a c with ⟨ev2, r2⟩
    have H2 : noCalls ev2 = true := by
      have := buildStage2_noCalls env a c
      rw [h2] at this
      exact this
    rcases r2 with o | r
    · rw [build_eq_stage2_error env a h1 h2]
      refine cpc_of_noCalls ?_ _ _
      rw [noCalls_append]
      simp [allLog_noCalls H1, H2]
    · rw [build_eq_ok env a h1 h2]
      obtain ⟨rest, hrest⟩ := (buildStage2_ok_shape env a c ev2 r h2).2.2.2.2.2.2
      rw [List.append_assoc, cpc_skip_allLog H1, hrest]
      rw [List.cons_append, List.cons_append, cpc_cons, cpc_cons]
      simp only [isEngineCall, isSyntaxCheckEv, isSchemaValidateEv,
        Bool.false_eq_true, if_false, Bool.or_true, Bool.or_false, Bool.false_or]
      exact cpc_true_true _

theorem buildStage2_ok_rmtree (env : Env) (a : BuildArgs) (c : Ctx)
    (ev2 : List Event) (r : Resolved)
    (h : buildStage2 env a c = (ev2, Except.ok r))
    (hd : env.isDir (env.abspath c.output) = true) :
    ∃ pre, ev2 = pre ++ [Event.rmtree (env.abspath c.output)] ∧
      noCalls pre = true := by
  unfold buildStage2 at h
  split at h
  · exact absurd (congrArg Prod.snd h) (by simp)
  · dsimp only at h
    rcases hr : resolvePublicationFinal env (parseParams a.param) c.publication
      with ⟨evp, rp⟩
    rw [hr] at h
    have hpl := resolvePublicationFinal_allLog env (parseParams a.param)
      c.publication
    rw [hr] at hpl
    rcases rp with o | pub <;> dsimp only at h
    · exact absurd (congrArg Prod.snd h) (by simp)
    · rcases hdp : env.pubDirs pub with _ | ⟨ext, gen⟩ <;> rw [hdp] at h <;>
        dsimp only at h
      · exact absurd (congrArg Prod.snd h) (by simp)
      · rw [hd] at h
        have h1 := congrArg Prod.fst h
        simp only [if_true] at h1
        refine ⟨[Event.xmlSyntaxCheck c.source, Event.schemaValidate c.source] ++
          evp ++ [Event.ensureDirectory (env.abspath (posixJoin (posixDirname c.source) ext)),
          Event.ensureDirectory (env.abspath (posixJoin (posixDirname c.source) gen))], ?_, ?_⟩
        · rw [← h1]
        · simp only [noCalls_append, allLog_noCalls hpl, Bool.true_and,
            Bool.and_true]
          rfl

/-- C8: for every invocation of the build command that runs to completion
with the resolved absolute output directory already existing on disk, the
trace removes that whole directory (`shutil.rmtree`), and the removal
precedes every invocation of the external transformation engine, so it is
not undone by a later build failure. -/
theorem build_removes_existing_output_before_dispatch (env : Env)
    (a : BuildArgs) (c : Ctx) (h1 : (resolveConfig env a).2 = Except.ok c)
    (h2 : (build env a).2 = Outcome.returned)
    (h3 : env.isDir (env.abspath c.output) = true) :
    Event.rmtree (env.abspath c.output) ∈ (build env a).1 ∧
    rmtreePrecedesCalls (env.abspath c.output) (build env a).1 = true := by
  rcases hr : resolveConfig env a with ⟨ev1, r1⟩
  rw [hr] at h1
  dsimp only at h1
  rcases r1 with o | c2
  · simp at h1
  · have hc : c2 = c := by simpa using h1
    subst hc
    have H1 : allLog ev1 = true := by
      have := resolveConfig_allLog env a
      rw [hr] at this
      exact this
    rcases hs : buildStage2 env a c2 with ⟨ev2, r2⟩
    rcases r2 with o | r
    · have hb := build_eq_stage2_error env a hr hs
      rw [hb] at h2
      exact absurd (by simpa using h2)
        (buildStage2_error_not_returned env a c2 o (by rw [hs]))
    · have hb := build_eq_ok env a hr hs
      obtain ⟨pre, hpre, hnc⟩ := buildStage2_ok_rmtree env a c2 ev2 r hs h3
      rw [hb, hpre]
      constructor
      · simp
      · have hassoc : (ev1 ++ (pre ++ [Event.rmtree (env.abspath c2.output)])) ++
            dispatch env a r =
            (ev1 ++ pre) ++ ([Event.rmtree (env.abspath c2.output)] ++
              dispatch env a r) := by
          simp
        rw [hassoc]
        refine rpc_skip_noCalls ?_ _ _ ?_
        · rw [noCalls_append]
          simp [allLog_noCalls H1, hnc]
        · rw [List.cons_append, rpc_cons]
          simp [isEngineCall]

/-- Sample run for C8: the sample project's output directory exists and is
removed before the html builder runs. -/
theorem build_removes_existing_output_before_dispatch_witness :
    Event.rmtree (demoEnv.abspath demoCtx.output) ∈ (build demoEnv demoArgs).1 ∧
    rmtreePrecedesCalls (demoEnv.abspath demoCtx.output)
      (build demoEnv demoArgs).1 = true :=
  build_removes_existing_output_before_dispatch demoEnv demoArgs demoCtx
    rfl rfl rfl

/-- Sample run for C2: `pretext build pdf` with no manifest exits. -/
theorem build_no_manifest_invalid_target_exits_witness :
    build noManifestEnv { demoArgs with target := some "pdf" } =
      ([Event.logWarning msgNoManifestWarn, Event.logCritical msgOnlyHtmlLatex],
        Outcome.exited msgBuildIncomplete) :=
  (build_no_manifest_invalid_target_exits noManifestEnv
    { demoArgs with target := some "pdf" } "pdf" rfl rfl
    (by decide) (by decide)).1

/-- Sample run for C3: `pretext build web` against the sample manifest,
which has no target named "web". -/
theorem build_target_not_in_manifest_exits_witness :
    build demoEnv { demoArgs with target := some "web" } =
      ([Event.logCritical msgNoSuchTarget], Outcome.exited msgExiting) :=
  (build_target_not_in_manifest_exits demoEnv
    { demoArgs with target := some "web" } "/proj" demoManifest "web"
    rfl rfl (by decide)).1

/-- C5 (counterexample): the claim that `project.ptx` is unchanged on every
execution path fails as stated: `pretext build html -o /proj --only-assets`
resolves the output directory to the project root, and removing the output
directory deletes the manifest itself. -/
theorem build_can_delete_manifest_counterexample :
    fsDemo "/proj/project.ptx" = some "<manifest>" ∧
    applyEvents fsDemo (build outputAtRootEnv outputAtRootArgs).1
      "/proj/project.ptx" = none := by
  constructor <;> rfl

/-- C5 (amended): the build command never writes or edits `project.ptx`
itself; on every execution path the manifest's contents (like any file's)
are unchanged provided its path does not lie under a directory the build
removes or writes into - the resolved absolute output directory, the
`generated-assets` directory handed to the diagrams builder, and the source
file's directory used for webwork output. -/
theorem build_preserves_files_outside_write_roots (env : Env) (a : BuildArgs)
    (path : String) (fs : String → Option String)
    (h : ∀ r ∈ buildWriteRoots env a, underDir r path = false) :
    applyEvents fs (build env a).1 path = fs path :=
  applyEvents_preserves_of_rootsIn (build_rootsIn env a) h fs

/-- Sample run for C5: a file outside all write roots of the sample build
is untouched. -/
theorem build_preserves_files_outside_write_roots_witness :
    (∀ r ∈ buildWriteRoots demoEnv demoArgs,
      underDir r "/elsewhere/file.txt" = false) ∧
    applyEvents fsDemo (build demoEnv demoArgs).1 "/elsewhere/file.txt" =
      fsDemo "/elsewhere/file.txt" :=
  ⟨by decide, build_preserves_files_outside_write_roots demoEnv demoArgs
    "/elsewhere/file.txt" fsDemo (by decide)⟩

/-- C7 (counterexample): `pretext view web` on the sample project (which
has no target "web") logs an error and returns normally - `sys.exit` is
never called, unlike the build command's fatal target-not-found path. -/
theorem view_missing_target_no_exit_counterexample :
    view demoEnv (some "web") "private" 8000 none false =
      ([Event.logError "Target `web` could not be found."], Outcome.returned) ∧
    isExitOutcome (view demoEnv (some "web") "private" 8000 none false).2 =
      false := by
  constructor <;> rfl

/-- C7 (amended): for every invocation of the view command whose named
target cannot be found in the project, the failure is surfaced as a
user-facing error log message and the command returns without starting a
preview server; unlike the build command's fatal conditions, the process is
not terminated via `sys.exit`. -/
theorem view_missing_target_logs_and_returns (env : Env) (dir : String)
    (m : Manifest) (tn : Option String) (access : String) (port : Nat)
    (watch : Bool) (hm : env.projectManifest = some (dir, m))
    (hx : projectTarget m tn = none) :
    view env tn access port none watch =
      ([Event.logError ("Target `" ++ pyStr tn ++ "` could not be found.")],
        Outcome.returned) := by
  unfold view
  rw [hm]
  dsimp only
  rw [hx]

/-- Sample run for C7: viewing the missing target "nope". -/
theorem view_missing_target_logs_and_returns_witness :
    view demoEnv (some "nope") "private" 8000 none false =
      ([Event.logError ("Target `" ++ pyStr (some "nope")
        ++ "` could not be found.")], Outcome.returned) :=
  view_missing_target_logs_and_returns demoEnv "/proj" demoManifest
    (some "nope") "private" 8000 false rfl (by decide)

/-- C9: for every invocation of `pretext new` or `pretext init` in a
location where a project manifest already exists, the command emits two
warnings and returns; its trace is a no-op on the filesystem (no file is
created, copied or overwritten). -/
theorem new_init_existing_project_noop (env : Env) (template directory : String)
    (url : Option String) (p q : String) :
    (env.projectPathAt (env.abspath directory) = some p →
      new env template directory url =
        ([Event.logWarning ("A project already exists in `" ++ p ++ "`."),
          Event.logWarning "No new project will be generated."],
          Outcome.returned) ∧
      ∀ (fs : String → Option String) (x : String),
        applyEvents fs (new env template directory url).1 x = fs x) ∧
    (env.projectPathAt (env.abspath ".") = some q →
      init env =
        ([Event.logWarning ("A project already exists in `" ++ q ++ "`."),
          Event.logWarning "No project manifest will be generated."],
          Outcome.returned) ∧
      ∀ (fs : String → Option String) (x : String),
        applyEvents fs (init env).1 x = fs x) := by
  constructor
  · intro h
    have hnew : new env template directory url =
        ([Event.logWarning ("A project already exists in `" ++ p ++ "`."),
          Event.logWarning "No new project will be generated."],
          Outcome.returned) := by
      unfold new
      dsimp only
      rw [h]
    refine ⟨hnew, ?_⟩
    intro fs x
    rw [hnew]
    rfl
  · intro h
    have hinit : init env =
        ([Event.logWarning ("A project already exists in `" ++ q ++ "`."),
          Event.logWarning "No project manifest will be generated."],
          Outcome.returned) := by
      unfold init
      dsimp only
      rw [h]
    refine ⟨hinit, ?_⟩
    intro fs x
    rw [hinit]
    rfl

/-- Sample run for C9: `pretext new` and `pretext init` over the sample
project at `/proj`. -/
theorem new_init_existing_project_noop_witness :
    new demoEnv "book" "new-pretext-project" none =
      ([Event.logWarning "A project already exists in `/proj`.",
        Event.logWarning "No new project will be generated."],
        Outcome.returned) ∧
    init demoEnv =
      ([Event.logWarning "A project already exists in `/proj`.",
        Event.logWarning "No project manifest will be generated."],
        Outcome.returned) :=
  ⟨((new_init_existing_project_noop demoEnv "book" "new-pretext-project"
      none "/proj" "/proj").1 rfl).1,
   ((new_init_existing_project_noop demoEnv "book" "new-pretext-project"
      none "/proj" "/proj").2 rfl).1⟩

/-- C4 (code divergence): `pretext build html -i s.ptx -o /out -p pub.ptx`
in a project whose publication file `pub.ptx` does not exist, with no
`publisher` string parameter.  Instead of warning and falling back to the
bundled `templates/publication.ptx`, formatting the fallback's own log
message indexes `stringparams["publisher"]`, which raises an uncaught
`KeyError` and aborts the invocation before any fallback or build. -/
theorem build_missing_publication_keyerror :
    build noPubFileEnv pubFlagArgs =
      ([Event.logDebug "source = s.ptx, output = /out, publisher = pub.ptx",
        Event.logDebug
          "Setting the target format to html, taken from manifest for target html",
        Event.xmlSyntaxCheck "s.ptx", Event.schemaValidate "s.ptx"],
       Outcome.crashed msgKeyErrorPublisher) := by
  rfl

theorem pubsOk_append (l1 l2 : List Event) (pub : String) :
    pubsOk (l1 ++ l2) pub = (pubsOk l1 pub && pubsOk l2 pub) := by
  simp [pubsOk, List.all_append]

theorem pubsOk_mem {evs : List Event} {pub : String}
    (h : pubsOk evs pub = true) :
    ∀ e ∈ evs, isEngineCall e = true → eventPublication e = some pub := by
  intro e he hc
  have := List.all_eq_true.mp h e he
  rw [hc] at this
  simp only [Bool.not_true, Bool.false_or] at this
  exact eq_of_beq this

theorem noCalls_mem {evs : List Event} (h : noCalls evs = true) :
    ∀ e ∈ evs, isEngineCall e = false := by
  intro e he
  have := List.all_eq_true.mp h e he
  simp only [Bool.not_eq_eq_eq_not, Bool.not_true] at this
  simpa using this

theorem dispatch_pubsOk (env : Env) (a : BuildArgs) (r : Resolved) :
    pubsOk (dispatch env a r) r.publication = true := by
  unfold dispatch
  simp only [pubsOk_append, Bool.and_eq_true]
  refine ⟨⟨⟨⟨?_, ?_⟩, ?_⟩, ?_⟩, ?_⟩
  · split
    · split <;> simp [pubsOk, isEngineCall, eventPublication]
    · rfl
  · split
    · simp [pubsOk, isEngineCall, eventPublication]
    · rw [pubsOk_append]
      simp only [Bool.and_eq_true]
      constructor <;> split <;> rfl
  · split
    · simp [pubsOk, isEngineCall, eventPublication]
    · rfl
  · split
    · simp [pubsOk, isEngineCall, eventPublication]
    · rfl
  · split
    · simp [pubsOk, isEngineCall, eventPublication]
    · rfl

theorem resolvePublicationFinal_publisher (env : Env)
    (sp : List (String × String)) (pub0 : Option String) (pp : String)
    (hp : dictFind sp "publisher" = some pp) :
    (resolvePublicationFinal env sp pub0).2 = Except.ok
      (if env.isFile (env.abspath pp) = true then env.abspath pp
       else posixJoin (posixJoin env.staticDir "templates") "publication.ptx") := by
  unfold resolvePublicationFinal
  rw [hp]
  dsimp only
  cases hc : env.isFile (env.abspath pp) <;>
    simp [hc, hp]

/-- C10: for every invocation of the build command whose string parameters
contain a `publisher` entry with value `pp`, the publication handed to
every engine invocation derives from `pp` alone (its absolute path when the
file exists, else the bundled template), regardless of the `-p` flag or the
manifest's publication child. -/
theorem build_publisher_param_overrides (env : Env) (a : BuildArgs)
    (pp : String)
    (hp : dictFind (parseParams a.param) "publisher" = some pp) :
    ∀ e ∈ (build env a).1, isEngineCall e = true →
      eventPublication e = some
        (if env.isFile (env.abspath pp) = true then env.abspath pp
         else posixJoin (posixJoin env.staticDir "templates")
           "publication.ptx") := by
  intro e he hc
  rcases h1 : resolveConfig env a with ⟨ev1, r1⟩
  have H1 : allLog ev1 = true := by
    have := resolveConfig_allLog env a
    rw [h1] at this
    exact this
  rcases r1 with o | c
  · rw [build_eq_resolve_error env a h1] at he
    exact absurd hc (by simp [(isLogEvent_not_call (allLog_mem H1 e he)).1])
  · rcases h2 : buildStage2 env a c with ⟨ev2, r2⟩
    have H2 : noCalls ev2 = true := by
      have := buildStage2_noCalls env a c
      rw [h2] at this
      exact this
    rcases r2 with o | r
    · rw [build_eq_stage2_error env a h1 h2] at he
      rcases List.mem_append.mp he with hm1 | hm2
      · exact absurd hc (by simp [(isLogEvent_not_call (allLog_mem H1 e hm1)).1])
      · exact absurd hc (by simp [noCalls_mem H2 e hm2])
    · rw [build_eq_ok env a h1 h2] at he
      rw [List.append_assoc] at he
      rcases List.mem_append.mp he with hm1 | hm'
      · exact absurd hc (by simp [(isLogEvent_not_call (allLog_mem H1 e hm1)).1])
      · rcases List.mem_append.mp hm' with hm2 | hm3
        · exact absurd hc (by simp [noCalls_mem H2 e hm2])
        · have hpub := pubsOk_mem (dispatch_pubsOk env a r) e hm3 hc
          have hshape := (buildStage2_ok_shape env a c ev2 r h2).2.2.2.2.2.1
          have hform := resolvePublicationFinal_publisher env
            (parseParams a.param) c.publication pp hp
          rw [hshape] at hform
          have : r.publication =
              (if env.isFile (env.abspath pp) = true then env.abspath pp
               else posixJoin (posixJoin env.staticDir "templates")
                 "publication.ptx") := by
            exact (Except.ok.injEq _ _).mp hform
          rw [hpub, this]

/-- Sample run for C10: `pretext build html --param publisher:mypub.ptx`
against the sample project; `mypub.ptx` does not exist, so the html builder
receives the bundled template publication, not the manifest's
`publication.ptx`. -/
theorem build_publisher_param_overrides_witness :
    eventPublication (Event.callHtml "/proj/source/main.ptx"
        "/static/templates/publication.ptx" "/proj/output/html") =
      some (if demoEnv.isFile (demoEnv.abspath "mypub.ptx") = true
        then demoEnv.abspath "mypub.ptx"
        else posixJoin (posixJoin demoEnv.staticDir "templates")
          "publication.ptx") :=
  build_publisher_param_overrides demoEnv publisherArgs "mypub.ptx"
    (by decide) (Event.callHtml "/proj/source/main.ptx"
      "/static/templates/publication.ptx" "/proj/output/html")
    (by decide) (by decide)

/-- C1: for every invocation of the build command, configuration is
resolved by merging manifest defaults with command-line overrides.  With a
manifest: a supplied target, source, output or publication is used as
given, and each one not supplied is taken (stripped) from the manifest
target's corresponding child element.  With no manifest at all: the
defaults are target "html", source "source/main.ptx" and output
"output/<target>". -/
theorem build_config_resolution (env : Env) (a : BuildArgs) :
    (∀ (dir : String) (m : Manifest) (t : String) (tx : TargetEtree)
      (ssrc sout : String),
      env.projectManifest = some (dir, m) → a.target = some t →
      targetXml env t = some tx → tx.source = some ssrc →
      tx.outputDir = some sout →
      (resolveConfig env a).2 = Except.ok
        { manifest := some "project.ptx", manifestDir := some dir,
          target := t,
          source := (match a.source with
            | some s => s
            | none => pyStrip ssrc),
          output := (match a.output with
            | some o => o
            | none => pyStrip sout),
          publication := (match a.publication with
            | some p => some p
            | none => Option.map pyStrip tx.publication),
          targetFormat := (match tx.format with
            | some f => pyStrip f
            | none => t) }) ∧
    (env.projectManifest = none →
      (a.target = none ∨ a.target = some "html" ∨ a.target = some "latex") →
      ∃ ev c, resolveConfig env a = (ev, Except.ok c) ∧
        c.target = a.target.getD "html" ∧
        c.source = a.source.getD "source/main.ptx" ∧
        c.output = a.output.getD ("output/" ++ a.target.getD "html")) := by
  constructor
  · intro dir m t tx ssrc sout hm ht hx hs ho
    rcases hsa : a.source with _ | s <;>
      rcases hao : a.output with _ | o <;>
        rcases hap : a.publication with _ | p <;>
          rcases hqp : tx.publication with _ | q <;>
            rcases hqf : tx.format with _ | f <;>
              simp [resolveConfig, locateManifest, resolveTarget,
                fillFromManifest, fillFromManifest.fillSource,
                fillFromManifest.fillOutput, hm, ht, hx, hs, ho,
                hsa, hao, hap, hqp, hqf]
  · intro hm htarget
    rcases htarget with ht | ht | ht <;>
      rcases hsa : a.source with _ | s <;>
        rcases hao : a.output with _ | o <;>
          rcases hap : a.publication with _ | p <;>
            (simp +decide [resolveConfig, locateManifest, resolveTarget,
              fillFromManifest, fillFromManifest.fillSource,
              fillFromManifest.fillOutput, projectXml, targetXml,
              templateManifest, hm, ht, hsa, hao, hap] <;>
             exact ⟨_, _, ⟨rfl, rfl⟩, rfl, rfl, rfl⟩)

/-- Sample runs for C1: `pretext build html -i S.ptx` against the sample
manifest (command-line source wins, the rest comes from the manifest), and
`pretext build html` with no manifest at all (built-in defaults). -/
theorem build_config_resolution_witness :
    ((resolveConfig demoEnv sourceFlagArgs).2 = Except.ok
      { manifest := some "project.ptx", manifestDir := some "/proj",
        target := "html", source := "S.ptx",
        output := pyStrip "output/html",
        publication := Option.map pyStrip (some "publication.ptx"),
        targetFormat := pyStrip "html" }) ∧
    (∃ ev c, resolveConfig noManifestEnv demoArgs = (ev, Except.ok c) ∧
      c.target = "html" ∧ c.source = "source/main.ptx" ∧
      c.output = "output/html") :=
  ⟨(build_config_resolution demoEnv sourceFlagArgs).1 "/proj" demoManifest
      "html" demoTargetHtml "source/main.ptx" "output/html" rfl rfl
      (by decide) rfl rfl,
   (build_config_resolution noManifestEnv demoArgs).2 rfl (Or.inr (Or.inl rfl))⟩

end PretextCLI
